import Mathlib

/-!
# Page generation step of `gatsby-node.js`

A shallow embedding of `exports.createPages` from `gatsby-node.js`.

The function receives three host capabilities (`graphql`, `actions.createPage`,
`reporter`) and uses Node's `path.resolve`.  Every call the function makes to
one of them is recorded, in program order, in a log of `Event`s that is passed
through the run; the run also yields an `Outcome` saying how it ended.
-/

namespace GatsbyNode

/-! ## Data model

The shape of the query result follows the selection of the query:
`data.allMdx.edges[i].node` with `id` and `frontmatter.slug`. -/

/-- The value of `frontmatter.slug` in a query result: the field is nullable, so
the JavaScript value is `undefined`, `null` or a string (of any content). -/
inductive Slug where
  | undefined
  | null
  | str (s : String)
  deriving DecidableEq, Repr

/-- The object `frontmatter { slug }` selected by the query. -/
structure Frontmatter where
  slug : Slug
  deriving DecidableEq, Repr

/-- The object `node { id frontmatter { slug } }` selected by the query. -/
structure Node where
  id : String
  frontmatter : Frontmatter
  deriving DecidableEq, Repr

/-- One element of `allMdx.edges`. -/
structure Edge where
  node : Node
  deriving DecidableEq, Repr

/-- The object `allMdx { edges }`. -/
structure AllMdx where
  edges : List Edge
  deriving DecidableEq, Repr

/-- The object held by `result.data` when it is present. -/
structure Data where
  allMdx : AllMdx
  deriving DecidableEq, Repr

/-- The value of `result.errors`: the property may be missing from the result
object, or hold `undefined`, `null`, or a list of error messages. -/
inductive ErrorsField where
  | absent
  | undefined
  | null
  | list (es : List String)
  deriving DecidableEq, Repr

/-- The value the `graphql` call resolves to.  `data = none` stands for a
`data` property that is `undefined` or `null`. -/
structure QueryResult where
  errors : ErrorsField
  data : Option Data
  deriving DecidableEq, Repr

/-- The object literal `{ id: node.id }`. -/
structure Context where
  id : String
  deriving DecidableEq, Repr

/-- The object literal handed to `createPage`. -/
structure PageDescriptor where
  path : Slug
  component : String
  context : Context
  deriving DecidableEq, Repr

/-- A call made by `createPages` to one of the capabilities it was given. -/
inductive Event where
  | graphql (query : String)
  | panicOnBuild (message : String)
  | createPage (page : PageDescriptor)
  deriving DecidableEq, Repr

/-- How a run of `createPages` ends: it runs to the end of the function body,
a property read on `undefined`/`null` raises a `TypeError`, or a host call
that does not return ended the run (the reporter inside `panicOnBuild`, or
`createPage` in the run whose registration callback may not return). -/
inductive Outcome where
  | completed
  | typeError
  | ended
  deriving DecidableEq, Repr

/-- The surroundings of one run: what `graphql` resolves to for a query text,
what Node's `path.resolve` returns for a path (it is a function of the path
for a fixed working directory), and whether a call of
`reporter.panicOnBuild` returns control to its caller (`true`) or ends the
run there (`false`). -/
structure Host where
  graphql : String → QueryResult
  pathResolve : String → String
  panicOnBuildReturns : Bool

/-! ## The program -/

/-- The template literal passed to `graphql` (lines 6-17). -/
def pageQuery : String :=
  "query \x7b\n        allMdx \x7b\n            edges \x7b\n                node \x7b\n                    id\n                    frontmatter\x7b\n                        slug\n                    \x7d\n                \x7d\n            \x7d\n        \x7d\n    \x7d"

/-- The message passed to `reporter.panicOnBuild` (line 20). -/
def panicMessage : String :=
  "🚨  ERROR: Loading \"createPages\" query"

/-- The argument of `path.resolve` (line 28). -/
def postLayoutPath : String := "./src/components/Layout/postlayout.js"

/-- JavaScript `ToBoolean` on the value of `result.errors`: a missing property
reads as `undefined`; `undefined` and `null` are falsy; every array, the
empty one included, is an object and so truthy. -/
def truthy : ErrorsField → Bool
  | .absent => false
  | .undefined => false
  | .null => false
  | .list _ => true

/-- The host's `createPage`: the call is recorded and returns. -/
def createPage (page : PageDescriptor) (log : List Event) : List Event :=
  log ++ [Event.createPage page]

/-- `Array.prototype.forEach`: the callback is applied to each element and its
index, from index `i` on, in ascending order. -/
def forEachFrom {α σ : Type} (callback : α → Nat → σ → σ) : List α → Nat → σ → σ
  | [], _, s => s
  | x :: xs, i, s => forEachFrom callback xs (i + 1) (callback x i s)

/-- `posts.forEach(callback)`. -/
def forEach {α σ : Type} (xs : List α) (callback : α → Nat → σ → σ) (s : σ) : σ :=
  forEachFrom callback xs 0 s

/-- The arrow function given to `posts.forEach` (lines 25-31): it destructures
`node` from the element, ignores `index`, and calls `createPage`. -/
def postCallback (h : Host) (edge : Edge) (_index : Nat) (log : List Event) : List Event :=
  createPage
    { path := edge.node.frontmatter.slug
      component := h.pathResolve postLayoutPath
      context := { id := edge.node.id } }
    log

/-- The host's `graphql`: the call is recorded and resolves to the host's
answer for the query text. -/
def graphql (h : Host) (query : String) (log : List Event) : List Event × QueryResult :=
  (log ++ [Event.graphql query], h.graphql query)

/-- The host's `reporter.panicOnBuild`: the call is recorded; the flag says
whether control comes back to the caller. -/
def panicOnBuild (h : Host) (message : String) (log : List Event) : List Event × Bool :=
  (log ++ [Event.panicOnBuild message], h.panicOnBuildReturns)

/-- The function `exports.createPages`, run from the log `log` of earlier calls. -/
def createPages (h : Host) (log : List Event) : List Event × Outcome :=
  -- const result = await graphql(...)
  let (log1, result) := graphql h pageQuery log
  -- if (result.errors) { reporter.panicOnBuild(...) }
  let (log2, goesOn) :=
    if truthy result.errors then panicOnBuild h panicMessage log1 else (log1, true)
  if goesOn then
    -- const posts = result.data.allMdx.edges
    match result.data with
    | none => (log2, Outcome.typeError)
    | some data =>
      let posts := data.allMdx.edges
      -- posts.forEach(({ node }, index) => { createPage({...}) })
      (forEach posts (postCallback h) log2, Outcome.completed)
  else
    (log2, Outcome.ended)

/-! ## Observations on a log -/

/-- The descriptors of the `createPage` calls in a log, in call order. -/
def registered : List Event → List PageDescriptor
  | [] => []
  | Event.createPage page :: es => page :: registered es
  | _ :: es => registered es

/-- The number of `reporter.panicOnBuild` calls in a log. -/
def panicCount : List Event → Nat
  | [] => 0
  | Event.panicOnBuild _ :: es => panicCount es + 1
  | _ :: es => panicCount es

/-- The number of `graphql` calls in a log. -/
def queryCount : List Event → Nat
  | [] => 0
  | Event.graphql _ :: es => queryCount es + 1
  | _ :: es => queryCount es

/-- The calls one run makes when started from the empty log. -/
def run (h : Host) : List Event := (createPages h []).1

/-- A query result is error-free when it carries no error list: its `errors`
property is missing, `undefined` or `null`. -/
def errorFree (r : QueryResult) : Bool :=
  match r.errors with
  | .list _ => false
  | _ => true

/-- The host that answers like `h` except that the result's
`data.allMdx.edges` is the list `edges`. -/
def withEdges (h : Host) (edges : List Edge) : Host :=
  { h with graphql := fun q => { h.graphql q with data := some { allMdx := { edges := edges } } } }

/-- The edge for a document with the given id and slug. -/
def doc (id : String) (slug : Slug) : Edge :=
  { node := { id := id, frontmatter := { slug := slug } } }

/-- The result `{ errors, data: { allMdx: { edges } } }`. -/
def resultOf (errors : ErrorsField) (edges : List Edge) : QueryResult :=
  { errors := errors, data := some { allMdx := { edges := edges } } }

/-- A host whose query resolves to `r`, whose `path.resolve` prefixes the
working directory `/site`, and whose reporter behaves as `returns` says. -/
def hostOf (r : QueryResult) (returns : Bool) : Host :=
  { graphql := fun _ => r
    pathResolve := fun p => "/site/" ++ p
    panicOnBuildReturns := returns }

/-- The descriptor the loop body builds for one edge. -/
def descriptorOf (h : Host) (edge : Edge) : PageDescriptor :=
  { path := edge.node.frontmatter.slug
    component := h.pathResolve postLayoutPath
    context := { id := edge.node.id } }

/-! ## The run with a registration callback that may not return

`createPage` above returns from every call.  The host's `createPage` is not
part of `gatsby-node.js`; here the host says, for each descriptor, whether the
call returns to the loop or ends the run there. -/

/-- The host's `createPage` when the host decides per descriptor whether the
call returns: the call is recorded; the flag says whether control comes back
to the caller. -/
def createPageWith (returns : PageDescriptor → Bool) (page : PageDescriptor)
    (log : List Event) : List Event × Bool :=
  (log ++ [Event.createPage page], returns page)

/-- `Array.prototype.forEach` with a callback that may not return: the callback
is applied to each element and its index, from index `i` on, in ascending
order, and the loop is left at the first call that does not return. -/
def forEachFromWith {α σ : Type} (callback : α → Nat → σ → σ × Bool) :
    List α → Nat → σ → σ × Bool
  | [], _, s => (s, true)
  | x :: xs, i, s =>
    match callback x i s with
    | (s1, true) => forEachFromWith callback xs (i + 1) s1
    | (s1, false) => (s1, false)

/-- `posts.forEach(callback)` with a callback that may not return. -/
def forEachWith {α σ : Type} (xs : List α) (callback : α → Nat → σ → σ × Bool) (s : σ) :
    σ × Bool :=
  forEachFromWith callback xs 0 s

/-- The arrow function given to `posts.forEach` (lines 25-31), calling a
`createPage` that may not return. -/
def postCallbackWith (h : Host) (returns : PageDescriptor → Bool) (edge : Edge)
    (_index : Nat) (log : List Event) : List Event × Bool :=
  createPageWith returns
    { path := edge.node.frontmatter.slug
      component := h.pathResolve postLayoutPath
      context := { id := edge.node.id } }
    log

/-- The function `exports.createPages`, run from the log `log` of earlier
calls, with a `createPage` that returns on the descriptors `returns` accepts
and ends the run on the others. -/
def createPagesWith (h : Host) (returns : PageDescriptor → Bool) (log : List Event) :
    List Event × Outcome :=
  -- const result = await graphql(...)
  let (log1, result) := graphql h pageQuery log
  -- if (result.errors) { reporter.panicOnBuild(...) }
  let (log2, goesOn) :=
    if truthy result.errors then panicOnBuild h panicMessage log1 else (log1, true)
  if goesOn then
    -- const posts = result.data.allMdx.edges
    match result.data with
    | none => (log2, Outcome.typeError)
    | some data =>
      let posts := data.allMdx.edges
      -- posts.forEach(({ node }, index) => { createPage({...}) })
      match forEachWith posts (postCallbackWith h returns) log2 with
      | (log3, true) => (log3, Outcome.completed)
      | (log3, false) => (log3, Outcome.ended)
  else
    (log2, Outcome.ended)

/-- A registration callback that returns when the descriptor's `path` is a
non-empty string and ends the run when it is `undefined`, `null` or empty. -/
def returnsOnPath (page : PageDescriptor) : Bool :=
  match page.path with
  | .str s => !s.data.isEmpty
  | _ => false

/-! ## Lemmas on logs and on the loop -/

theorem registered_append (xs ys : List Event) :
    registered (xs ++ ys) = registered xs ++ registered ys := by
  induction xs with
  | nil => rfl
  | cons e es ih => cases e <;> simp [registered, ih]

theorem panicCount_append (xs ys : List Event) :
    panicCount (xs ++ ys) = panicCount xs + panicCount ys := by
  induction xs with
  | nil => simp [panicCount]
  | cons e es ih =>
    cases e <;> simp [panicCount, ih]
    omega

theorem queryCount_append (xs ys : List Event) :
    queryCount (xs ++ ys) = queryCount xs + queryCount ys := by
  induction xs with
  | nil => simp [queryCount]
  | cons e es ih =>
    cases e <;> simp [queryCount, ih]
    omega

theorem registered_map_createPage (pages : List PageDescriptor) :
    registered (pages.map Event.createPage) = pages := by
  induction pages with
  | nil => rfl
  | cons p ps ih => simp [registered, ih]

theorem panicCount_map_createPage (pages : List PageDescriptor) :
    panicCount (pages.map Event.createPage) = 0 := by
  induction pages with
  | nil => rfl
  | cons p ps ih => simp [panicCount, ih]

theorem queryCount_map_createPage (pages : List PageDescriptor) :
    queryCount (pages.map Event.createPage) = 0 := by
  induction pages with
  | nil => rfl
  | cons p ps ih => simp [queryCount, ih]

theorem forEachFrom_postCallback (h : Host) (edges : List Edge) (i : Nat) (log : List Event) :
    forEachFrom (postCallback h) edges i log
      = log ++ (edges.map (descriptorOf h)).map Event.createPage := by
  induction edges generalizing i log with
  | nil => simp [forEachFrom]
  | cons e es ih =>
    simp [forEachFrom, ih, postCallback, createPage, descriptorOf]

theorem forEach_postCallback (h : Host) (edges : List Edge) (log : List Event) :
    forEach edges (postCallback h) log
      = log ++ (edges.map (descriptorOf h)).map Event.createPage :=
  forEachFrom_postCallback h edges 0 log

/-- The run on an error-free result with data: the query, then one
`createPage` per edge. -/
theorem createPages_of_errorFree (h : Host) (log : List Event) (data : Data)
    (herr : errorFree (h.graphql pageQuery) = true)
    (hdata : (h.graphql pageQuery).data = some data) :
    createPages h log
      = (log ++ Event.graphql pageQuery
            :: (data.allMdx.edges.map (descriptorOf h)).map Event.createPage,
          Outcome.completed) := by
  have ht : truthy (h.graphql pageQuery).errors = false := by
    unfold errorFree at herr
    cases he : (h.graphql pageQuery).errors <;> simp_all [truthy]
  simp [createPages, graphql, ht, hdata, forEach_postCallback]

/-- The shape of every run: the query first, then at most one reporter call,
then `createPage` calls only. -/
theorem createPages_shape (h : Host) (log : List Event) :
    ∃ pages : List PageDescriptor,
      (createPages h log).1
        = log ++ Event.graphql pageQuery
            :: ((if truthy (h.graphql pageQuery).errors
                  then [Event.panicOnBuild panicMessage] else [])
                ++ pages.map Event.createPage)
      ∧ ∀ page ∈ pages, page.component = h.pathResolve postLayoutPath := by
  cases hd : (h.graphql pageQuery).data with
  | none =>
    refine ⟨[], ?_, by simp⟩
    cases ht : truthy (h.graphql pageQuery).errors <;>
      cases hr : h.panicOnBuildReturns <;>
      simp [createPages, graphql, panicOnBuild, ht, hr, hd]
  | some data =>
    cases ht : truthy (h.graphql pageQuery).errors with
    | false =>
      refine ⟨data.allMdx.edges.map (descriptorOf h), ?_, by simp [descriptorOf]⟩
      simp [createPages, graphql, ht, hd, forEach_postCallback]
    | true =>
      cases hr : h.panicOnBuildReturns with
      | false =>
        refine ⟨[], ?_, by simp⟩
        simp [createPages, graphql, panicOnBuild, ht, hr]
      | true =>
        refine ⟨data.allMdx.edges.map (descriptorOf h), ?_, by simp [descriptorOf]⟩
        simp [createPages, graphql, panicOnBuild, ht, hr, hd, forEach_postCallback]

theorem errorFree_withEdges (h : Host) (edges : List Edge) :
    errorFree ((withEdges h edges).graphql pageQuery) = errorFree (h.graphql pageQuery) := rfl

/-- The pages registered by a run, from the empty log, on an error-free result
with the given edge list. -/
theorem registered_run_withEdges (h : Host) (edges : List Edge)
    (herr : errorFree (h.graphql pageQuery) = true) :
    registered (run (withEdges h edges)) = edges.map (descriptorOf h) := by
  unfold run
  rw [createPages_of_errorFree (withEdges h edges) [] { allMdx := { edges := edges } } herr rfl]
  simp only [List.nil_append, registered, registered_map_createPage]
  rfl

/-! ## Lemmas on the loop with a callback that may not return -/

/-- While the callback returns, the loop records one call per edge. -/
theorem forEachFromWith_returning (h : Host) (returns : PageDescriptor → Bool)
    (pre rest : List Edge) (i : Nat) (log : List Event)
    (hpre : ∀ d ∈ pre, returns (descriptorOf h d) = true) :
    forEachFromWith (postCallbackWith h returns) (pre ++ rest) i log
      = forEachFromWith (postCallbackWith h returns) rest (i + pre.length)
          (log ++ (pre.map (descriptorOf h)).map Event.createPage) := by
  induction pre generalizing i log with
  | nil => simp
  | cons e es ih =>
    have he : returns (descriptorOf h e) = true := hpre e (List.mem_cons_self _ _)
    have hes : ∀ d ∈ es, returns (descriptorOf h d) = true :=
      fun d hd => hpre d (List.mem_cons_of_mem _ hd)
    have hstep : postCallbackWith h returns e i log
        = (log ++ [Event.createPage (descriptorOf h e)], true) := by
      simp only [postCallbackWith, createPageWith]
      exact Prod.ext rfl he
    have hrun : forEachFromWith (postCallbackWith h returns) (e :: es ++ rest) i log
        = forEachFromWith (postCallbackWith h returns) (es ++ rest) (i + 1)
            (log ++ [Event.createPage (descriptorOf h e)]) := by
      simp only [List.cons_append, forEachFromWith, hstep]
      rfl
    rw [hrun, ih (i + 1) _ hes]
    simp [Nat.add_assoc, Nat.add_comm 1]

/-- Whatever the callback does, the loop only adds `createPage` calls. -/
theorem forEachFromWith_adds_pages (h : Host) (returns : PageDescriptor → Bool)
    (edges : List Edge) (i : Nat) (log : List Event) :
    ∃ pages : List PageDescriptor,
      (forEachFromWith (postCallbackWith h returns) edges i log).1
        = log ++ pages.map Event.createPage := by
  induction edges generalizing i log with
  | nil => exact ⟨[], by simp [forEachFromWith]⟩
  | cons e es ih =>
    cases he : returns (descriptorOf h e) with
    | false =>
      refine ⟨[descriptorOf h e], ?_⟩
      have hstep : postCallbackWith h returns e i log
          = (log ++ [Event.createPage (descriptorOf h e)], false) := by
        simp only [postCallbackWith, createPageWith]
        exact Prod.ext rfl he
      simp [forEachFromWith, hstep]
    | true =>
      have hstep : postCallbackWith h returns e i log
          = (log ++ [Event.createPage (descriptorOf h e)], true) := by
        simp only [postCallbackWith, createPageWith]
        exact Prod.ext rfl he
      obtain ⟨pages, hp⟩ := ih (i + 1) (log ++ [Event.createPage (descriptorOf h e)])
      refine ⟨descriptorOf h e :: pages, ?_⟩
      simp [forEachFromWith, hstep, hp]

/-- One step of the loop. -/
theorem forEachFromWith_cons (h : Host) (returns : PageDescriptor → Bool)
    (e : Edge) (es : List Edge) (i : Nat) (log : List Event) :
    forEachFromWith (postCallbackWith h returns) (e :: es) i log
      = if returns (descriptorOf h e) then
          forEachFromWith (postCallbackWith h returns) es (i + 1)
            (log ++ [Event.createPage (descriptorOf h e)])
        else (log ++ [Event.createPage (descriptorOf h e)], false) := by
  cases he : returns (descriptorOf h e) with
  | false =>
    have hstep : postCallbackWith h returns e i log
        = (log ++ [Event.createPage (descriptorOf h e)], false) := by
      simp only [postCallbackWith, createPageWith]
      exact Prod.ext rfl he
    simp [forEachFromWith, hstep]
  | true =>
    have hstep : postCallbackWith h returns e i log
        = (log ++ [Event.createPage (descriptorOf h e)], true) := by
      simp only [postCallbackWith, createPageWith]
      exact Prod.ext rfl he
    simp [forEachFromWith, hstep]

/-- When the callback returns on every edge, the loop records one call per edge
and returns. -/
theorem forEachFromWith_all_returning (h : Host) (returns : PageDescriptor → Bool)
    (edges : List Edge) (i : Nat) (log : List Event)
    (hall : ∀ d ∈ edges, returns (descriptorOf h d) = true) :
    forEachFromWith (postCallbackWith h returns) edges i log
      = (log ++ (edges.map (descriptorOf h)).map Event.createPage, true) := by
  have := forEachFromWith_returning h returns edges [] i log hall
  simp only [List.append_nil] at this
  rw [this]
  rfl

/-- The run on an error-free result with data, in terms of the loop. -/
theorem createPagesWith_of_errorFree (h : Host) (returns : PageDescriptor → Bool)
    (log : List Event) (data : Data)
    (herr : errorFree (h.graphql pageQuery) = true)
    (hdata : (h.graphql pageQuery).data = some data) :
    createPagesWith h returns log
      = ((forEachFromWith (postCallbackWith h returns) data.allMdx.edges 0
            (log ++ [Event.graphql pageQuery])).1,
          if (forEachFromWith (postCallbackWith h returns) data.allMdx.edges 0
            (log ++ [Event.graphql pageQuery])).2 then Outcome.completed else Outcome.ended) := by
  have ht : truthy (h.graphql pageQuery).errors = false := by
    unfold errorFree at herr
    cases he : (h.graphql pageQuery).errors <;> simp_all [truthy]
  simp only [createPagesWith, graphql, ht, hdata, forEachWith, Bool.false_eq_true, if_false,
    if_true]
  rcases hf : forEachFromWith (postCallbackWith h returns) data.allMdx.edges 0
      (log ++ [Event.graphql pageQuery]) with ⟨l, b⟩
  cases b <;> simp

/-- With a registration callback that returns from every call, the run is the
run `createPages`. -/
theorem createPagesWith_always_returning (h : Host) (log : List Event) :
    createPagesWith h (fun _ => true) log = createPages h log := by
  have hloop : ∀ (edges : List Edge) (l : List Event),
      forEachWith edges (postCallbackWith h (fun _ => true)) l
        = (forEach edges (postCallback h) l, true) := by
    intro edges l
    have := forEachFromWith_returning h (fun _ => true) edges [] 0 l (fun _ _ => rfl)
    simp only [List.append_nil] at this
    rw [forEachWith, this, forEach_postCallback]
    simp [forEachFromWith]
  cases ht : truthy (h.graphql pageQuery).errors <;>
    cases hr : h.panicOnBuildReturns <;>
    cases hd : (h.graphql pageQuery).data <;>
    simp [createPagesWith, createPages, graphql, panicOnBuild, ht, hr, hd, hloop]

/-! ## The page generation contract -/

/-- C1: for a query result without errors whose edge list is `edges`, the run
calls the query and then `createPage` exactly once per edge, in the order of
the edges; the call for an edge receives a descriptor whose `path` is the
edge's `frontmatter.slug` and whose `context` is `{ id }` with the edge's id. -/
theorem createPages_registers_each_edge_in_order (h : Host) (log : List Event)
    (edges : List Edge)
    (herr : errorFree (h.graphql pageQuery) = true)
    (hdata : (h.graphql pageQuery).data = some { allMdx := { edges := edges } }) :
    ∃ pages : List PageDescriptor,
      (createPages h log).1
          = log ++ Event.graphql pageQuery :: pages.map Event.createPage
      ∧ pages.length = edges.length
      ∧ pages.map (fun page => (page.path, page.context))
          = edges.map (fun d => (d.node.frontmatter.slug, Context.mk d.node.id)) := by
  refine ⟨edges.map (descriptorOf h), ?_, by simp, ?_⟩
  · rw [createPages_of_errorFree h log _ herr hdata]
  · simp [descriptorOf]

/-- The scenario of two posts: the descriptors registered are
`/post-one` with id `a1`, then `/post-two` with id `a2`. -/
theorem createPages_registers_each_edge_in_order_witness :
    ∃ pages : List PageDescriptor,
      (createPages
          (hostOf (resultOf .absent
            [doc "a1" (.str "/post-one"), doc "a2" (.str "/post-two")]) true) []).1
          = [] ++ Event.graphql pageQuery :: pages.map Event.createPage
      ∧ pages.length = 2
      ∧ pages.map (fun page => (page.path, page.context))
          = [(Slug.str "/post-one", Context.mk "a1"), (Slug.str "/post-two", Context.mk "a2")] :=
  createPages_registers_each_edge_in_order
    (hostOf (resultOf .absent
      [doc "a1" (.str "/post-one"), doc "a2" (.str "/post-two")]) true) []
    [doc "a1" (.str "/post-one"), doc "a2" (.str "/post-two")] rfl rfl

/-- C2: on a result that reports the error list `["parse error"]` and also
holds data with one edge, with a reporter whose `panicOnBuild` returns to its
caller, the run calls `panicOnBuild` once and then goes on to call `createPage`
for the edge and completes: the function body has no `return` after the
reporter call. -/
theorem createPages_registers_after_reported_errors :
    createPages
        (hostOf (resultOf (.list ["parse error"]) [doc "a1" (.str "/post-one")]) true) []
      = ([Event.graphql pageQuery,
          Event.panicOnBuild panicMessage,
          Event.createPage
            { path := .str "/post-one"
              component := "/site/./src/components/Layout/postlayout.js"
              context := { id := "a1" } }],
         Outcome.completed) := by
  rfl

/-- When the result reports an error list, the reporter is called right after
the query; no `createPage` call follows if the reporter ends the run or if the
result holds no data. -/
theorem createPages_errors_stopped (h : Host) (log : List Event) (es : List String)
    (herr : (h.graphql pageQuery).errors = .list es)
    (hstop : h.panicOnBuildReturns = false ∨ (h.graphql pageQuery).data = none) :
    (createPages h log).1
        = log ++ [Event.graphql pageQuery, Event.panicOnBuild panicMessage]
      ∧ (createPages h log).2 ≠ Outcome.completed := by
  rcases hstop with hr | hd
  · simp [createPages, graphql, panicOnBuild, herr, truthy, hr]
  · cases hr : h.panicOnBuildReturns <;>
      simp [createPages, graphql, panicOnBuild, herr, truthy, hr, hd]

/-- C3: for an error-free query result, the number of `createPage` calls the
run adds equals the number of edges of the result; nothing is assumed about
the slugs or ids of the edges, so repeated ones count each time. -/
theorem createPages_registers_one_page_per_edge (h : Host) (log : List Event) (data : Data)
    (herr : errorFree (h.graphql pageQuery) = true)
    (hdata : (h.graphql pageQuery).data = some data) :
    (registered (createPages h log).1).length
      = (registered log).length + data.allMdx.edges.length := by
  rw [createPages_of_errorFree h log data herr hdata]
  simp only [registered_append, registered, registered_map_createPage, List.length_append,
    List.length_map]

/-- Three edges, two of them with the same id and all with the same slug,
give three registrations. -/
theorem createPages_registers_one_page_per_edge_witness :
    (registered (createPages
        (hostOf (resultOf .absent
          [doc "a1" (.str "/p"), doc "a1" (.str "/p"), doc "a2" (.str "/p")]) true) []).1).length
      = (registered []).length + 3 :=
  createPages_registers_one_page_per_edge
    (hostOf (resultOf .absent
      [doc "a1" (.str "/p"), doc "a1" (.str "/p"), doc "a2" (.str "/p")]) true) []
    { allMdx := { edges := [doc "a1" (.str "/p"), doc "a1" (.str "/p"), doc "a2" (.str "/p")] } }
    rfl rfl

/-- C4: for an error-free query result whose edge list is empty, the run makes
the query call and nothing else: no `createPage` call, no `panicOnBuild` call,
and it runs to completion. -/
theorem createPages_empty_edges (h : Host) (log : List Event)
    (herr : errorFree (h.graphql pageQuery) = true)
    (hdata : (h.graphql pageQuery).data = some { allMdx := { edges := [] } }) :
    createPages h log = (log ++ [Event.graphql pageQuery], Outcome.completed)
      ∧ registered (createPages h log).1 = registered log
      ∧ panicCount (createPages h log).1 = panicCount log
      ∧ (createPages h log).2 = Outcome.completed := by
  rw [createPages_of_errorFree h log _ herr hdata]
  simp [registered_append, registered, panicCount_append, panicCount]

/-- The empty result `{ data: { allMdx: { edges: [] } } }`. -/
theorem createPages_empty_edges_witness :
    createPages (hostOf (resultOf .absent []) false) []
        = ([] ++ [Event.graphql pageQuery], Outcome.completed)
      ∧ registered (createPages (hostOf (resultOf .absent []) false) []).1 = registered []
      ∧ panicCount (createPages (hostOf (resultOf .absent []) false) []).1 = panicCount []
      ∧ (createPages (hostOf (resultOf .absent []) false) []).2 = Outcome.completed :=
  createPages_empty_edges (hostOf (resultOf .absent []) false) [] rfl rfl

/-- C5: every descriptor a run passes to `createPage` has the same `component`,
the value `path.resolve` gives for `./src/components/Layout/postlayout.js`;
the value is fixed by the host alone, not by the document or its position. -/
theorem createPages_component_is_shared (h : Host) (page : PageDescriptor)
    (hpage : page ∈ registered (run h)) :
    postLayoutPath = "./src/components/Layout/postlayout.js"
      ∧ page.component = h.pathResolve postLayoutPath := by
  refine ⟨rfl, ?_⟩
  obtain ⟨pages, hlog, hcomp⟩ := createPages_shape h []
  unfold run at hpage
  rw [hlog] at hpage
  apply hcomp
  by_cases ht : truthy (h.graphql pageQuery).errors = true <;>
    simpa [ht, registered, registered_append, registered_map_createPage] using hpage

/-- The second of two registered pages carries the shared component. -/
theorem createPages_component_is_shared_witness :
    postLayoutPath = "./src/components/Layout/postlayout.js"
      ∧ (PageDescriptor.mk (.str "/post-two") "/site/./src/components/Layout/postlayout.js"
            { id := "a2" }).component
          = (hostOf (resultOf .absent
              [doc "a1" (.str "/post-one"), doc "a2" (.str "/post-two")]) true).pathResolve
              postLayoutPath :=
  createPages_component_is_shared
    (hostOf (resultOf .absent
      [doc "a1" (.str "/post-one"), doc "a2" (.str "/post-two")]) true)
    (PageDescriptor.mk (.str "/post-two") "/site/./src/components/Layout/postlayout.js"
      { id := "a2" })
    (by decide)

/-- C6: for an error-free query result, every call the run makes after the
query is a `createPage` call, and `panicOnBuild` is not called. -/
theorem createPages_errorFree_only_createPage (h : Host) (log : List Event)
    (herr : errorFree (h.graphql pageQuery) = true) :
    (∃ pages : List PageDescriptor,
        (createPages h log).1
          = log ++ Event.graphql pageQuery :: pages.map Event.createPage)
      ∧ panicCount (createPages h log).1 = panicCount log := by
  have ht : truthy (h.graphql pageQuery).errors = false := by
    unfold errorFree at herr
    cases he : (h.graphql pageQuery).errors <;> simp_all [truthy]
  obtain ⟨pages, hlog, -⟩ := createPages_shape h log
  simp only [ht, Bool.false_eq_true, if_false, List.nil_append] at hlog
  refine ⟨⟨pages, hlog⟩, ?_⟩
  rw [hlog]
  simp [panicCount_append, panicCount, panicCount_map_createPage]

/-- An error-free result with one edge: the query, then one `createPage`. -/
theorem createPages_errorFree_only_createPage_witness :
    (∃ pages : List PageDescriptor,
        (createPages (hostOf (resultOf .null [doc "a1" (.str "/post-one")]) false) []).1
          = [] ++ Event.graphql pageQuery :: pages.map Event.createPage)
      ∧ panicCount (createPages (hostOf (resultOf .null [doc "a1" (.str "/post-one")]) false) []).1
          = panicCount [] :=
  createPages_errorFree_only_createPage
    (hostOf (resultOf .null [doc "a1" (.str "/post-one")]) false) [] rfl

/-- C7 (the claim as stated fails): with a registration callback that does not
return on a missing path, the list a1 `/post-one`, a2 `null`, a3 `/post-three`
gives `createPage` calls for a1 and a2 only and the run is ended inside the
call for a2, so a3 is not registered and the run does not complete; without a2
the run completes and registers a1 and a3. -/
theorem createPagesWith_missing_slug_ends_run :
    (createPagesWith
        (hostOf (resultOf .absent
          [doc "a1" (.str "/post-one"), doc "a2" .null, doc "a3" (.str "/post-three")]) true)
        returnsOnPath []).2 = Outcome.ended
      ∧ (registered (createPagesWith
          (hostOf (resultOf .absent
            [doc "a1" (.str "/post-one"), doc "a2" .null, doc "a3" (.str "/post-three")]) true)
          returnsOnPath []).1).map (fun page => (page.path, page.context))
          = [(Slug.str "/post-one", Context.mk "a1"), (Slug.null, Context.mk "a2")]
      ∧ (createPagesWith
          (hostOf (resultOf .absent
            [doc "a1" (.str "/post-one"), doc "a3" (.str "/post-three")]) true)
          returnsOnPath []).2 = Outcome.completed
      ∧ (registered (createPagesWith
          (hostOf (resultOf .absent
            [doc "a1" (.str "/post-one"), doc "a3" (.str "/post-three")]) true)
          returnsOnPath []).1).map (fun page => (page.path, page.context))
          = [(Slug.str "/post-one", Context.mk "a1"),
             (Slug.str "/post-three", Context.mk "a3")] := by
  refine ⟨?_, ?_, ?_, ?_⟩ <;> rfl

/-- C7 (amended): a document whose slug is any value at all (`undefined`,
`null`, or a string of any content) is not checked.  On an error-free result,
when `createPage` returned for the documents before it, the run does not call
`panicOnBuild`, raises no `TypeError`, registers the documents before it as
they are and then calls `createPage` for it with `path` equal to that value
and `context.id` equal to its id.  What follows is decided by the host's
`createPage`: if that call does not return, nothing more is registered and the
run is ended there; if it returns, and `createPage` returns for the documents
after it, these are registered as in a run without the document and the run
completes. -/
theorem createPagesWith_unchecked_slug (h : Host) (returns : PageDescriptor → Bool)
    (log : List Event) (pre post : List Edge) (id : String) (slug : Slug)
    (herr : errorFree (h.graphql pageQuery) = true)
    (hpre : ∀ d ∈ pre, returns (descriptorOf h d) = true) :
    panicCount (createPagesWith (withEdges h (pre ++ doc id slug :: post)) returns log).1
        = panicCount log
      ∧ (createPagesWith (withEdges h (pre ++ doc id slug :: post)) returns log).2
          ≠ Outcome.typeError
      ∧ ∃ after : List PageDescriptor,
          (createPagesWith (withEdges h (pre ++ doc id slug :: post)) returns log).1
            = log ++ Event.graphql pageQuery
                :: ((pre.map (descriptorOf h)).map Event.createPage
                    ++ Event.createPage
                        { path := slug
                          component := h.pathResolve postLayoutPath
                          context := { id := id } }
                      :: after.map Event.createPage)
          ∧ (returns { path := slug
                       component := h.pathResolve postLayoutPath
                       context := { id := id } } = false →
              after = []
              ∧ (createPagesWith (withEdges h (pre ++ doc id slug :: post)) returns log).2
                  = Outcome.ended)
          ∧ (returns { path := slug
                       component := h.pathResolve postLayoutPath
                       context := { id := id } } = true →
              (∀ d ∈ post, returns (descriptorOf h d) = true) →
              after = post.map (descriptorOf h)
              ∧ (createPagesWith (withEdges h (pre ++ doc id slug :: post)) returns log).2
                  = Outcome.completed
              ∧ createPagesWith (withEdges h (pre ++ post)) returns log
                  = (log ++ Event.graphql pageQuery
                      :: ((pre.map (descriptorOf h)).map Event.createPage
                          ++ (post.map (descriptorOf h)).map Event.createPage),
                     Outcome.completed)) := by
  have hrun := createPagesWith_of_errorFree (withEdges h (pre ++ doc id slug :: post)) returns
    log { allMdx := { edges := pre ++ doc id slug :: post } } herr rfl
  have hcb : postCallbackWith (withEdges h (pre ++ doc id slug :: post)) returns
      = postCallbackWith h returns := rfl
  have hbad : descriptorOf h (doc id slug)
      = { path := slug, component := h.pathResolve postLayoutPath, context := { id := id } } :=
    rfl
  rw [hcb] at hrun
  simp only at hrun
  rw [forEachFromWith_returning h returns pre (doc id slug :: post) 0 _ hpre,
    forEachFromWith_cons, hbad] at hrun
  cases hb : returns (PageDescriptor.mk slug (h.pathResolve postLayoutPath) (Context.mk id)) with
  | false =>
    simp only [hb, Bool.false_eq_true, if_false] at hrun
    rw [hrun]
    refine ⟨?_, by simp, [], ?_, fun _ => ⟨rfl, rfl⟩, fun hc => by simp at hc⟩
    · simp only [panicCount_append, panicCount, panicCount_map_createPage, Nat.add_zero,
        Nat.zero_add]
    · simp [List.append_assoc]
  | true =>
    simp only [hb, if_true] at hrun
    by_cases hall : ∀ d ∈ post, returns (descriptorOf h d) = true
    · rw [forEachFromWith_all_returning h returns post _ _ hall] at hrun
      simp only [if_true] at hrun
      rw [hrun]
      refine ⟨?_, by simp, post.map (descriptorOf h), ?_, fun hc => by simp at hc,
        fun _ _ => ⟨rfl, rfl, ?_⟩⟩
      · simp only [panicCount_append, panicCount, panicCount_map_createPage, Nat.add_zero,
          Nat.zero_add]
      · simp [List.append_assoc]
      · have hrun2 := createPagesWith_of_errorFree (withEdges h (pre ++ post)) returns
          log { allMdx := { edges := pre ++ post } } herr rfl
        have hcb2 : postCallbackWith (withEdges h (pre ++ post)) returns
            = postCallbackWith h returns := rfl
        have hall2 : ∀ d ∈ pre ++ post, returns (descriptorOf h d) = true := by
          intro d hd
          rcases List.mem_append.mp hd with hd | hd
          · exact hpre d hd
          · exact hall d hd
        rw [hcb2] at hrun2
        simp only at hrun2
        rw [forEachFromWith_all_returning h returns (pre ++ post) _ _ hall2] at hrun2
        rw [hrun2]
        simp [List.append_assoc]
    · obtain ⟨pages, hp⟩ := forEachFromWith_adds_pages h returns post (0 + pre.length + 1)
        (log ++ [Event.graphql pageQuery]
          ++ (pre.map (descriptorOf h)).map Event.createPage
          ++ [Event.createPage
                (PageDescriptor.mk slug (h.pathResolve postLayoutPath) (Context.mk id))])
      rw [hrun]
      refine ⟨?_, ?_, pages, ?_, fun hc => by simp at hc, fun _ hc => absurd hc hall⟩
      · rw [hp]
        simp only [panicCount_append, panicCount, panicCount_map_createPage, Nat.add_zero,
          Nat.zero_add]
      · split <;> simp
      · rw [hp]
        simp [List.append_assoc]

/-- A document with a `null` slug between two ordinary documents, with a
registration callback that does not return on a missing path. -/
theorem createPagesWith_unchecked_slug_witness :
    panicCount (createPagesWith (withEdges (hostOf (resultOf .absent []) true)
        ([doc "a1" (.str "/post-one")] ++ doc "a2" .null :: [doc "a3" (.str "/post-three")]))
        returnsOnPath []).1 = panicCount []
      ∧ (createPagesWith (withEdges (hostOf (resultOf .absent []) true)
          ([doc "a1" (.str "/post-one")] ++ doc "a2" .null :: [doc "a3" (.str "/post-three")]))
          returnsOnPath []).2 ≠ Outcome.typeError
      ∧ ∃ after : List PageDescriptor,
          (createPagesWith (withEdges (hostOf (resultOf .absent []) true)
            ([doc "a1" (.str "/post-one")] ++ doc "a2" .null :: [doc "a3" (.str "/post-three")]))
            returnsOnPath []).1
            = [] ++ Event.graphql pageQuery
                :: (([doc "a1" (.str "/post-one")].map
                      (descriptorOf (hostOf (resultOf .absent []) true))).map Event.createPage
                    ++ Event.createPage
                        { path := .null
                          component :=
                            (hostOf (resultOf .absent []) true).pathResolve postLayoutPath
                          context := { id := "a2" } }
                      :: after.map Event.createPage)
          ∧ (returnsOnPath
                { path := .null
                  component := (hostOf (resultOf .absent []) true).pathResolve postLayoutPath
                  context := { id := "a2" } } = false →
              after = []
              ∧ (createPagesWith (withEdges (hostOf (resultOf .absent []) true)
                  ([doc "a1" (.str "/post-one")] ++ doc "a2" .null
                    :: [doc "a3" (.str "/post-three")]))
                  returnsOnPath []).2 = Outcome.ended)
          ∧ (returnsOnPath
                { path := .null
                  component := (hostOf (resultOf .absent []) true).pathResolve postLayoutPath
                  context := { id := "a2" } } = true →
              (∀ d ∈ [doc "a3" (.str "/post-three")],
                returnsOnPath (descriptorOf (hostOf (resultOf .absent []) true) d) = true) →
              after = [doc "a3" (.str "/post-three")].map
                  (descriptorOf (hostOf (resultOf .absent []) true))
              ∧ (createPagesWith (withEdges (hostOf (resultOf .absent []) true)
                  ([doc "a1" (.str "/post-one")] ++ doc "a2" .null
                    :: [doc "a3" (.str "/post-three")]))
                  returnsOnPath []).2 = Outcome.completed
              ∧ createPagesWith (withEdges (hostOf (resultOf .absent []) true)
                  ([doc "a1" (.str "/post-one")] ++ [doc "a3" (.str "/post-three")]))
                  returnsOnPath []
                  = ([] ++ Event.graphql pageQuery
                      :: (([doc "a1" (.str "/post-one")].map
                            (descriptorOf (hostOf (resultOf .absent []) true))).map
                            Event.createPage
                          ++ ([doc "a3" (.str "/post-three")].map
                            (descriptorOf (hostOf (resultOf .absent []) true))).map
                            Event.createPage),
                     Outcome.completed)) :=
  createPagesWith_unchecked_slug (hostOf (resultOf .absent []) true) returnsOnPath []
    [doc "a1" (.str "/post-one")] [doc "a3" (.str "/post-three")] "a2" .null rfl
    (by
      intro d hd
      rw [List.mem_singleton] at hd
      subst hd
      rfl)

/-- C8: every run makes exactly one `graphql` call, and it is the first call of
the run: whatever the result holds, the calls that follow it (reporter and
`createPage` calls) contain no further query. -/
theorem createPages_queries_once_first (h : Host) (log : List Event) :
    ∃ rest : List Event,
      (createPages h log).1 = log ++ Event.graphql pageQuery :: rest
      ∧ queryCount rest = 0
      ∧ queryCount (createPages h log).1 = queryCount log + 1 := by
  obtain ⟨pages, hlog, -⟩ := createPages_shape h log
  refine ⟨_, hlog, ?_, ?_⟩
  · cases truthy (h.graphql pageQuery).errors <;>
      simp [queryCount_append, queryCount, queryCount_map_createPage]
  · rw [hlog]
    cases truthy (h.graphql pageQuery).errors <;>
      simp [queryCount_append, queryCount, queryCount_map_createPage]

/-- C9: on error-free results the descriptor registered for a document is a
function of its id and slug alone, so the pages registered for `xs ++ ys` are
those registered for `xs` followed by those registered for `ys`; and a second
run, started from the log the first one left, adds the same calls again. -/
theorem createPages_mapping_independent (h : Host) (log : List Event) (xs ys : List Edge)
    (herr : errorFree (h.graphql pageQuery) = true) :
    registered (run (withEdges h xs))
        = xs.map (fun d =>
            PageDescriptor.mk d.node.frontmatter.slug (h.pathResolve postLayoutPath)
              (Context.mk d.node.id))
      ∧ registered (run (withEdges h (xs ++ ys)))
          = registered (run (withEdges h xs)) ++ registered (run (withEdges h ys))
      ∧ ∃ calls : List Event,
          (createPages (withEdges h xs) log).1 = log ++ calls
          ∧ (createPages (withEdges h xs) (createPages (withEdges h xs) log).1).1
              = (log ++ calls) ++ calls := by
  refine ⟨?_, ?_, ?_⟩
  · rw [registered_run_withEdges h _ herr]
    rfl
  · simp only [registered_run_withEdges h _ herr, List.map_append]
  · refine ⟨Event.graphql pageQuery :: (xs.map (descriptorOf h)).map Event.createPage, ?_, ?_⟩
    · rw [createPages_of_errorFree (withEdges h xs) log { allMdx := { edges := xs } } herr rfl]
      rfl
    · rw [createPages_of_errorFree (withEdges h xs) _ { allMdx := { edges := xs } } herr rfl,
        createPages_of_errorFree (withEdges h xs) log { allMdx := { edges := xs } } herr rfl]
      rfl

/-- Two lists of one document each, and a prior log holding one call. -/
theorem createPages_mapping_independent_witness :
    registered (run (withEdges (hostOf (resultOf .absent []) true) [doc "a1" (.str "/post-one")]))
        = [doc "a1" (.str "/post-one")].map (fun d =>
            PageDescriptor.mk d.node.frontmatter.slug
              ((hostOf (resultOf .absent []) true).pathResolve postLayoutPath)
              (Context.mk d.node.id))
      ∧ registered (run (withEdges (hostOf (resultOf .absent []) true)
            ([doc "a1" (.str "/post-one")] ++ [doc "a2" (.str "/post-two")])))
          = registered (run (withEdges (hostOf (resultOf .absent []) true)
              [doc "a1" (.str "/post-one")]))
            ++ registered (run (withEdges (hostOf (resultOf .absent []) true)
              [doc "a2" (.str "/post-two")]))
      ∧ ∃ calls : List Event,
          (createPages (withEdges (hostOf (resultOf .absent []) true)
              [doc "a1" (.str "/post-one")]) [Event.graphql "earlier"]).1
            = [Event.graphql "earlier"] ++ calls
          ∧ (createPages (withEdges (hostOf (resultOf .absent []) true)
                [doc "a1" (.str "/post-one")])
              (createPages (withEdges (hostOf (resultOf .absent []) true)
                [doc "a1" (.str "/post-one")]) [Event.graphql "earlier"]).1).1
            = ([Event.graphql "earlier"] ++ calls) ++ calls :=
  createPages_mapping_independent (hostOf (resultOf .absent []) true)
    [Event.graphql "earlier"] [doc "a1" (.str "/post-one")] [doc "a2" (.str "/post-two")] rfl

/-- C10: the reporter call is decided by the truthiness of `result.errors`: a
run calls `panicOnBuild` exactly once when the value is truthy and not at all
otherwise; a present list is truthy even when empty, and a missing,
`undefined` or `null` value is not. -/
theorem createPages_panics_iff_errors_truthy (h : Host) (log : List Event) :
    panicCount (createPages h log).1
        = panicCount log + (if truthy (h.graphql pageQuery).errors then 1 else 0)
      ∧ (panicCount (createPages h log).1 = panicCount log + 1
          ↔ truthy (h.graphql pageQuery).errors = true)
      ∧ (panicCount (createPages h log).1 = panicCount log
          ↔ truthy (h.graphql pageQuery).errors = false)
      ∧ truthy (.list []) = true
      ∧ truthy .absent = false ∧ truthy .undefined = false ∧ truthy .null = false
      ∧ panicCount (run (hostOf (resultOf (.list []) []) true)) = 1
      ∧ panicCount (run (hostOf (resultOf .absent []) true)) = 0
      ∧ panicCount (run (hostOf (resultOf .undefined []) true)) = 0
      ∧ panicCount (run (hostOf (resultOf .null []) true)) = 0 := by
  have key : panicCount (createPages h log).1
      = panicCount log + (if truthy (h.graphql pageQuery).errors then 1 else 0) := by
    obtain ⟨pages, hlog, -⟩ := createPages_shape h log
    rw [hlog]
    cases truthy (h.graphql pageQuery).errors <;>
      simp [panicCount_append, panicCount, panicCount_map_createPage]
  refine ⟨key, ?_, ?_, rfl, rfl, rfl, rfl, rfl, rfl, rfl, rfl⟩
  · rw [key]
    cases truthy (h.graphql pageQuery).errors <;> simp
  · rw [key]
    cases truthy (h.graphql pageQuery).errors <;> simp

end GatsbyNode
